import Mathlib

/-!
Verification development for the Arkive offline-first synchronization engine.

The definitions below are a shallow embedding of the TypeScript sources:
  - src/src/services/firebaseSync.ts           (class FirebaseSyncService)
  - src/unnamed/part_002, first section        (class DatabaseService, services/database.ts)
  - src/unnamed/part_002, second section       (a second, retry-limited variant of
                                                FirebaseSyncService with maxRetries = 3)

Modelling conventions:
  - A JavaScript Date is a millisecond instant, modelled as a Nat.
  - An ISO-8601 timestamp string is modelled by an injective decimal rendering
    of that instant (encodeDate); the JS "new Date(string)" parse is modelled by
    decodeDate.  The property the claims use is exactly the real one:
    new Date(d.toISOString()).getTime() = d.getTime(), i.e. decode after encode
    is the identity, while the string and the native date remain distinct values.
  - A record is an association list of field name to value; lookups model JS
    property access.
  - Asynchronous remote writes either succeed or throw; a drain consults an
    outcome oracle (one Bool per delivery attempt, true = the attempt throws).
-/

/-- A JavaScript runtime value as far as the sync engine inspects one:
a plain string, a native Date (millisecond instant), or an invalid date
(result of parsing a non-date string). -/
inductive Value where
  | str : String → Value
  | date : Nat → Value
  | invalidDate : Value
deriving DecidableEq, Repr

/-- Decimal digit character for d < 10 (model of number rendering inside an
ISO-8601 timestamp). -/
def digitChar (d : Nat) : Char :=
  match d with
  | 0 => '0' | 1 => '1' | 2 => '2' | 3 => '3' | 4 => '4'
  | 5 => '5' | 6 => '6' | 7 => '7' | 8 => '8' | _ => '9'

/-- Numeric value of a digit character; 10 marks a non-digit. -/
def digitVal (c : Char) : Nat :=
  match c with
  | '0' => 0 | '1' => 1 | '2' => 2 | '3' => 3 | '4' => 4
  | '5' => 5 | '6' => 6 | '7' => 7 | '8' => 8 | '9' => 9
  | _ => 10

/-- Model of Date.toISOString: an injective rendering of the millisecond
instant as a string (most significant digit first). -/
def encodeDate (n : Nat) : String :=
  if n = 0 then "0" else String.mk (((Nat.digits 10 n).map digitChar).reverse)

/-- Accumulator pass of the string-to-instant parse. -/
def decodeDigitsAux : Nat → List Char → Option Nat
  | acc, [] => some acc
  | acc, c :: cs =>
    if digitVal c < 10 then decodeDigitsAux (acc * 10 + digitVal c) cs else none

/-- Model of new Date(s) for a string s: recovers the instant from an
ISO-rendered timestamp, fails on other strings. -/
def decodeDate (s : String) : Option Nat :=
  match s.data with
  | [] => none
  | c :: cs => decodeDigitsAux 0 (c :: cs)

theorem digitVal_digitChar {d : Nat} (h : d < 10) : digitVal (digitChar d) = d := by
  interval_cases d <;> rfl

theorem decodeDigitsAux_map_digitChar (m : List Nat) (hm : ∀ d ∈ m, d < 10) :
    ∀ acc, decodeDigitsAux acc (m.map digitChar) =
      some (m.foldl (fun a d => a * 10 + d) acc) := by
  induction m with
  | nil => intro acc; rfl
  | cons d m ih =>
    intro acc
    have hd : d < 10 := hm d (by simp)
    have hrest : ∀ x ∈ m, x < 10 := fun x hx => hm x (by simp [hx])
    simp only [List.map_cons, decodeDigitsAux, digitVal_digitChar hd, if_pos hd,
      List.foldl_cons]
    exact ih hrest (acc * 10 + d)

theorem foldl_reverse_ofDigits (l : List Nat) :
    ∀ acc, l.reverse.foldl (fun a d => a * 10 + d) acc =
      acc * 10 ^ l.length + Nat.ofDigits 10 l := by
  induction l with
  | nil => intro acc; simp [Nat.ofDigits]
  | cons d l ih =>
    intro acc
    simp only [List.reverse_cons, List.foldl_append, List.foldl_cons, List.foldl_nil,
      ih acc, Nat.ofDigits_cons, List.length_cons]
    ring

/-- The ISO-8601 round trip at the instant level: parsing the rendered
timestamp recovers the original millisecond value (the real JS fact
new Date(d.toISOString()).getTime() = d.getTime()). -/
theorem decodeDate_encodeDate (n : Nat) : decodeDate (encodeDate n) = some n := by
  by_cases h0 : n = 0
  · subst h0; rfl
  · have hne : Nat.digits 10 n ≠ [] := Nat.digits_ne_nil_iff_ne_zero.mpr h0
    have hlt : ∀ d ∈ (Nat.digits 10 n).reverse, d < 10 := fun d hd =>
      Nat.digits_lt_base (by norm_num) (List.mem_reverse.mp hd)
    have hrev : (Nat.digits 10 n).reverse ≠ [] :=
      fun h => hne (List.reverse_eq_nil_iff.mp h)
    obtain ⟨c, cs, hcs⟩ := List.exists_cons_of_ne_nil hrev
    have hkey : decodeDate (String.mk (((Nat.digits 10 n).reverse).map digitChar)) =
        some n := by
      rw [hcs, List.map_cons]
      show decodeDigitsAux 0 (digitChar c :: cs.map digitChar) = some n
      rw [← List.map_cons digitChar c cs, ← hcs,
        decodeDigitsAux_map_digitChar _ hlt 0, foldl_reverse_ofDigits]
      simp [Nat.ofDigits_digits]
    have hmap : ((Nat.digits 10 n).map digitChar).reverse =
        ((Nat.digits 10 n).reverse).map digitChar := by
      simp [List.map_reverse]
    unfold encodeDate
    rw [if_neg h0, hmap]
    exact hkey

/-! ## Records and field access -/

/-- A record is an association list of field name to value (a JS object as the
sync engine observes one).  Field access is first-match lookup. -/
abbrev Record := List (String × Value)

/-- JS property read r.name (first binding wins; our records are built with
distinct field names, as JS objects are). -/
def fieldLookup (name : String) : Record → Option Value
  | [] => none
  | (k, v) :: r => if k = name then some v else fieldLookup name r

/-- Drop every binding of a field name. -/
def removeField (name : String) : Record → Record
  | [] => []
  | (k, v) :: r => if k = name then removeField name r else (k, v) :: removeField name r

/-- Model of the object spread with an overriding property,
as in set(dataRef, bracket ...data, lastModified: iso, syncedBy: id bracket):
the named field is (re)bound to the given value. -/
def setField (r : Record) (name : String) (v : Value) : Record :=
  removeField name r ++ [(name, v)]

/-- JSON / Firebase serialization of one value: a native Date becomes its
ISO-8601 string (Date.toJSON), strings pass through. -/
def serializeValue : Value → Value
  | .date n => .str (encodeDate n)
  | .str s => .str s
  | .invalidDate => .str "Invalid Date"

/-- Model of new Date(v): a Date is copied, a string is parsed (an
unparseable string yields an invalid date). -/
def parseValue : Value → Value
  | .date n => .date n
  | .str s =>
    match decodeDate s with
    | some m => .date m
    | none => .invalidDate
  | .invalidDate => .invalidDate

/-- Serialization of a whole record: every field value is serialized
(JSON.stringify / the RTDB write path). -/
def serializeRecord (r : Record) : Record :=
  r.map (fun p => (p.1, serializeValue p.2))

theorem parseValue_serializeValue_date (n : Nat) :
    parseValue (serializeValue (.date n)) = .date n := by
  simp [serializeValue, parseValue, decodeDate_encodeDate]

theorem fieldLookup_serializeRecord (name : String) (r : Record) :
    fieldLookup name (serializeRecord r) = (fieldLookup name r).map serializeValue := by
  induction r with
  | nil => rfl
  | cons p r ih =>
    by_cases h : p.1 = name
    · simp [serializeRecord, fieldLookup, h]
    · simp only [serializeRecord, List.map_cons, fieldLookup, if_neg h]
      exact ih

theorem fieldLookup_removeField_ne (name other : String) (r : Record)
    (h : name ≠ other) :
    fieldLookup name (removeField other r) = fieldLookup name r := by
  induction r with
  | nil => rfl
  | cons p r ih =>
    obtain ⟨k, v⟩ := p
    by_cases hk : k = other
    · have hkn : ¬ k = name := fun hh => h (hh.symm.trans hk)
      simp only [removeField, if_pos hk, fieldLookup, if_neg hkn]
      exact ih
    · by_cases hn : k = name
      · simp only [removeField, if_neg hk, fieldLookup, if_pos hn]
      · simp only [removeField, if_neg hk, fieldLookup, if_neg hn]
        exact ih

theorem fieldLookup_append (name : String) (r s : Record) :
    fieldLookup name (r ++ s) =
      (fieldLookup name r).orElse (fun _ => fieldLookup name s) := by
  induction r with
  | nil => rfl
  | cons p r ih =>
    obtain ⟨k, v⟩ := p
    by_cases hkk : k = name
    · simp only [List.cons_append, fieldLookup, if_pos hkk]
      rfl
    · simp only [List.cons_append, fieldLookup, if_neg hkk]
      exact ih

theorem fieldLookup_removeField_self (name : String) (r : Record) :
    fieldLookup name (removeField name r) = none := by
  induction r with
  | nil => rfl
  | cons p r ih =>
    obtain ⟨k, v⟩ := p
    by_cases hk : k = name
    · simp only [removeField, if_pos hk]
      exact ih
    · simp only [removeField, if_neg hk, fieldLookup, if_neg hk]
      exact ih

theorem fieldLookup_setField_self (r : Record) (name : String) (v : Value) :
    fieldLookup name (setField r name v) = some v := by
  unfold setField
  rw [fieldLookup_append, fieldLookup_removeField_self]
  simp [fieldLookup]

theorem fieldLookup_setField_ne (r : Record) (name other : String) (v : Value)
    (h : name ≠ other) :
    fieldLookup name (setField r other v) = fieldLookup name r := by
  unfold setField
  rw [fieldLookup_append, fieldLookup_removeField_ne name other r h]
  have hon : ¬ other = name := fun hh => h hh.symm
  have hnil : fieldLookup name [(other, v)] = none := by
    simp only [fieldLookup, if_neg hon]
  rw [hnil]
  cases fieldLookup name r <;> rfl

/-! ## SyncOperation and the persisted queue

Embeds the SyncOperation interface and the queue persistence of
src/src/services/firebaseSync.ts (loadSyncQueue, saveSyncQueue,
addToSyncQueue). -/

/-- type field of a SyncOperation: create, update or delete. -/
inductive OpType where
  | create
  | update
  | del
deriving DecidableEq, Repr

/-- interface SyncOperation of firebaseSync.ts.  The timestamp is a Value
because after a JSON round trip through localStorage it is a string while a
freshly enqueued operation carries a native Date. -/
structure SyncOperation where
  id : String
  type : OpType
  store : String
  data : Record
  timestamp : Value
  deviceId : String
deriving DecidableEq, Repr

/-- The JSON.stringify image of one queued operation (what JSON.parse hands
back on the next startup): the timestamp Date collapses to its ISO string and
every date inside the payload does too; no field is revived to a Date. -/
def serializeOp (op : SyncOperation) : SyncOperation :=
  { op with timestamp := serializeValue op.timestamp, data := serializeRecord op.data }

/-- saveSyncQueue: localStorage.setItem of JSON.stringify(syncQueue) under the
fixed key arkive-sync-queue, overwriting the previous value.  The storage cell
holds the parsed image of that JSON text. -/
def saveSyncQueue (q : List SyncOperation) : Option (List SyncOperation) :=
  some (q.map serializeOp)

/-- loadSyncQueue: JSON.parse of the stored text, or the empty queue when the
key is absent; no revival of Date fields happens. -/
def loadSyncQueue (storage : Option (List SyncOperation)) : List SyncOperation :=
  storage.getD []

/-! ## Remote mirror and drain -/

/-- The remote real-time database: an association of path (collection name,
record id) to the stored record. -/
abbrev RemoteDb := List ((String × String) × Record)

/-- set(ref(rtdb, store/id), payload): replace-or-insert at the path. -/
def remoteSet (remote : RemoteDb) (path : String × String) (payload : Record) :
    RemoteDb :=
  if ∃ e ∈ remote, e.1 = path then
    remote.map (fun e => if e.1 = path then (path, payload) else e)
  else remote ++ [(path, payload)]

/-- remove(ref(rtdb, store/id)). -/
def remoteRemove (remote : RemoteDb) (path : String × String) : RemoteDb :=
  remote.filter (fun e => e.1 ≠ path)

/-- The record id of a payload, as used for the remote path
(operation.data.id); absent ids are modelled as the empty string. -/
def dataId (r : Record) : String :=
  match fieldLookup "id" r with
  | some (.str s) => s
  | _ => ""

/-- The object written by syncToFirebase for create/update:
bracket ...operation.data, lastModified: new Date(timestamp).toISOString(),
syncedBy: deviceId bracket, serialized by the RTDB write. -/
def syncPayload (devId : String) (op : SyncOperation) : Record :=
  setField (setField (serializeRecord op.data)
      "lastModified" (serializeValue (parseValue op.timestamp)))
    "syncedBy" (.str devId)

/-- syncToFirebase applied to the remote store, assuming the network call
succeeds: create and update both set the path, delete removes it. -/
def syncToFirebase (devId : String) (op : SyncOperation) (remote : RemoteDb) :
    RemoteDb :=
  match op.type with
  | .create => remoteSet remote (op.store, dataId op.data) (syncPayload devId op)
  | .update => remoteSet remote (op.store, dataId op.data) (syncPayload devId op)
  | .del => remoteRemove remote (op.store, dataId op.data)

/-- Head of the delivery-outcome oracle (true = this attempt throws) and the
rest; an exhausted oracle means all further attempts succeed. -/
def nextOutcome : List Bool → Bool × List Bool
  | [] => (false, [])
  | b :: rest => (b, rest)

/-- The for-loop body of processSyncQueue over the snapshot: each operation is
attempted in order; a success is applied to the remote store and logged as
delivered, a failure is pushed back onto the (emptied) queue.  Returns the
re-queued operations, the delivered operations (in delivery order), the
resulting remote store and the unconsumed oracle. -/
def runOps (devId : String) :
    List SyncOperation → List Bool → RemoteDb →
      List SyncOperation × List SyncOperation × RemoteDb × List Bool
  | [], oracle, remote => ([], [], remote, oracle)
  | op :: rest, oracle, remote =>
    if (nextOutcome oracle).1 then
      let r := runOps devId rest (nextOutcome oracle).2 remote
      (op :: r.1, r.2.1, r.2.2.1, r.2.2.2)
    else
      let r := runOps devId rest (nextOutcome oracle).2 (syncToFirebase devId op remote)
      (r.1, op :: r.2.1, r.2.2.1, r.2.2.2)

/-- State of the FirebaseSyncService of src/src/services/firebaseSync.ts
(the variant without a retry ceiling), plus two observation logs: the
operations handed to syncToFirebase (attempted) and the operations whose
remote write succeeded (delivered), each in order. -/
structure SyncState where
  isOnline : Bool
  syncQueue : List SyncOperation
  storage : Option (List SyncOperation)
  remote : RemoteDb
  attempted : List SyncOperation
  delivered : List SyncOperation
  deviceId : String
deriving DecidableEq, Repr

/-- processSyncQueue of src/src/services/firebaseSync.ts: return at once when
offline or the queue is empty; otherwise snapshot and clear the queue, attempt
every snapshot operation in order re-queueing failures at the tail, then
persist the resulting queue. -/
def processSyncQueue (st : SyncState) (oracle : List Bool) :
    SyncState × List Bool :=
  if ¬ st.isOnline ∨ st.syncQueue = [] then (st, oracle)
  else
    let r := runOps st.deviceId st.syncQueue oracle st.remote
    ({ st with
        syncQueue := r.1,
        storage := saveSyncQueue r.1,
        remote := r.2.2.1,
        attempted := st.attempted ++ st.syncQueue,
        delivered := st.delivered ++ r.2.1 }, r.2.2.2)

/-- Lines 69 and 70 of addToSyncQueue: this.syncQueue.push(syncOp) followed by
this.saveSyncQueue(). -/
def enqueueStep (st : SyncState) (op : SyncOperation) : SyncState :=
  { st with
      syncQueue := st.syncQueue ++ [op],
      storage := saveSyncQueue (st.syncQueue ++ [op]) }

/-- addToSyncQueue: build the SyncOperation from the intent plus a fresh id,
the current instant and the device id; push and persist; then drain
immediately when online. -/
def addToSyncQueue (st : SyncState) (ty : OpType) (storeName : String)
    (data : Record) (newId : String) (now : Nat) (oracle : List Bool) :
    SyncState × List Bool :=
  let op : SyncOperation :=
    { id := newId, type := ty, store := storeName, data := data,
      timestamp := .date now, deviceId := st.deviceId }
  let st1 := enqueueStep st op
  if st1.isOnline then processSyncQueue st1 oracle else (st1, oracle)

/-! ## The retry-limited FirebaseSyncService variant (src/unnamed/part_002)

The second section of part_002 contains a second version of the class whose
processSyncQueue is additionally gated by a retry counter:
if (!this.isOnline || this.syncQueue.length === 0 ||
    this.retryAttempts >= this.maxRetries) return;
with maxRetries = 3 and retryAttempts incremented once per failed operation and
reset to 0 by the window online event (and by successful full syncs). -/

/-- maxRetries of the part_002 FirebaseSyncService. -/
def maxRetries : Nat := 3

/-- State of the part_002 FirebaseSyncService, with the same observation logs
as SyncState plus the retryAttempts counter. -/
structure SyncStateR where
  isOnline : Bool
  syncQueue : List SyncOperation
  storage : Option (List SyncOperation)
  remote : RemoteDb
  attempted : List SyncOperation
  delivered : List SyncOperation
  retryAttempts : Nat
  deviceId : String
deriving DecidableEq, Repr

/-- processSyncQueue of the part_002 variant: also returns at once when
retryAttempts has reached maxRetries; each failed operation increments
retryAttempts by one (the number of re-queued operations). -/
def processSyncQueueR (st : SyncStateR) (oracle : List Bool) :
    SyncStateR × List Bool :=
  if ¬ st.isOnline ∨ st.syncQueue = [] ∨ maxRetries ≤ st.retryAttempts then
    (st, oracle)
  else
    let r := runOps st.deviceId st.syncQueue oracle st.remote
    ({ st with
        syncQueue := r.1,
        storage := saveSyncQueue r.1,
        remote := r.2.2.1,
        attempted := st.attempted ++ st.syncQueue,
        delivered := st.delivered ++ r.2.1,
        retryAttempts := st.retryAttempts + r.1.length }, r.2.2.2)

/-! ## Local durable store (class DatabaseService, part_002 first section)

IndexedDB collections are lists of records keyed by the id field
(keyPath: id).  add rejects when the key is present (ConstraintError);
put replaces when the key is present and inserts otherwise (upsert);
delete and clear always succeed. -/

/-- Store-level failures visible to DatabaseService callers. -/
inductive DbError where
  | constraintError
  | storeNotFound (name : String)
deriving DecidableEq, Repr

/-- The unique secondary index each object store declares in the
onupgradeneeded handler: users.username (line 47), clients.cnic (line 50) and
employees.employeeId (line 68) carry unique: true; every other index is
non-unique. -/
def uniqueIndexField : String → Option String
  | "users" => some "username"
  | "clients" => some "cnic"
  | "employees" => some "employeeId"
  | _ => none

/-- A unique-index violation: some stored record with a DIFFERENT primary key
carries the same (present) secondary key as the incoming record.  A record
lacking the indexed field is not indexed, so it conflicts with nothing. -/
def uniqueConflict : Option String → List Record → Record → Prop
  | none, _, _ => False
  | some f, coll, r =>
    ∃ s ∈ coll, dataId s ≠ dataId r ∧
      fieldLookup f r ≠ none ∧ fieldLookup f s = fieldLookup f r

instance : ∀ (uf : Option String) (coll : List Record) (r : Record),
    Decidable (uniqueConflict uf coll r)
  | none, _, _ => isFalse id
  | some f, coll, r =>
    (inferInstance : Decidable (∃ s ∈ coll, dataId s ≠ dataId r ∧
      fieldLookup f r ≠ none ∧ fieldLookup f s = fieldLookup f r))

/-- IDBObjectStore.add for a keyPath id store with an optional unique
secondary index: rejects with ConstraintError when a record with the same id
is already present or when a unique secondary key collides, else appends. -/
def idbAdd (uf : Option String) (coll : List Record) (r : Record) :
    Except DbError (List Record) :=
  if (∃ s ∈ coll, dataId s = dataId r) ∨ uniqueConflict uf coll r then
    .error .constraintError
  else .ok (coll ++ [r])

/-- IDBObjectStore.put for a keyPath id store with an optional unique
secondary index: full-record replace when the id is present, insert otherwise;
it never reports a missing key, but rejects with ConstraintError when the
unique secondary key collides with a record under a different id. -/
def idbPut (uf : Option String) (coll : List Record) (r : Record) :
    Except DbError (List Record) :=
  if uniqueConflict uf coll r then .error .constraintError
  else .ok (if ∃ s ∈ coll, dataId s = dataId r then
      coll.map (fun s => if dataId s = dataId r then r else s)
    else coll ++ [r])

/-- The timestamp refresh of updateClient (and updateEmployee):
bracket ...record, updatedAt: new Date(), lastModified: new Date() bracket. -/
def stampUpdate (r : Record) (now : Nat) : Record :=
  setField (setField r "updatedAt" (.date now)) "lastModified" (.date now)

/-- updateClient of DatabaseService: stamp the timestamps and put the full
record into the clients store (unique cnic index); the store request cannot
fail on a missing id (put upserts).  The fire-and-forget enqueue runs beside
it and does not shape the result. -/
def updateClient (coll : List Record) (c : Record) (now : Nat) :
    Except DbError (List Record) :=
  idbPut (uniqueIndexField "clients") coll (stampUpdate c now)

/-- updateEmployee of DatabaseService: identical store semantics against the
employees store (unique employeeId index). -/
def updateEmployee (coll : List Record) (e : Record) (now : Nat) :
    Except DbError (List Record) :=
  idbPut (uniqueIndexField "employees") coll (stampUpdate e now)

/-! ## The object-store schema and sync metadata (claim C10) -/

/-- Line 41 of part_002: the store names the onupgradeneeded handler creates. -/
def storeNames : List String :=
  ["users", "clients", "receipts", "expenses", "activities",
   "notifications", "documents", "employees", "attendance"]

/-- getObjectStore: db.transaction([storeName], mode) throws NotFoundError
when the named object store does not exist in the schema. -/
def getObjectStore (name : String) : Except DbError Unit :=
  if name ∈ storeNames then .ok () else .error (.storeNotFound name)

/-- getLastSyncTime: open a transaction on sync_metadata and read the
last_sync record.  The metadata argument is the would-be store contents. -/
def getLastSyncTime (meta : List Record) : Except DbError (Option Value) :=
  match getObjectStore "sync_metadata" with
  | .error e => .error e
  | .ok _ =>
    .ok ((meta.find? (fun r => dataId r = "last_sync")).map
      (fun r => parseValue ((fieldLookup "timestamp" r).getD .invalidDate)))

/-- updateLastSyncTime: open a readwrite transaction on sync_metadata and put
the last_sync record. -/
def updateLastSyncTime (meta : List Record) (now : Nat) (devId : String) :
    Except DbError (List Record) :=
  match getObjectStore "sync_metadata" with
  | .error e => .error e
  | .ok _ =>
    idbPut none meta
      [("id", .str "last_sync"), ("timestamp", .date now), ("deviceId", .str devId)]

/-! ## One-shot collection read (getStoreFromFirebase) -/

/-- The fixed field list that getStoreFromFirebase parses back to native
dates.  Employee joinDate and attendance checkIn/checkOut are absent from it
(joinDate is revived only by the realtime listener, checkIn/checkOut by
neither reader). -/
def oneShotDateFields : List String :=
  ["createdAt", "updatedAt", "lastModified", "date", "timestamp",
   "uploadedAt", "lastAccessed", "lastLogin"]

/-- The per-item mapping of getStoreFromFirebase: spread the raw item and
rebuild each field of the fixed list with new Date(...); every other field is
returned as stored.  (For an item lacking createdAt the JS code would add an
invalid createdAt; the records in every claim below carry createdAt, where the
two presentations agree.) -/
def rehydrateOneShot (r : Record) : Record :=
  r.map (fun p => if p.1 ∈ oneShotDateFields then (p.1, parseValue p.2) else p)

/-- getStoreFromFirebase(storeName): one-shot fetch of every record under the
collection path (Object.values of the id-keyed node), each run through
rehydrateOneShot. -/
def getStoreFromFirebase (remote : RemoteDb) (storeName : String) :
    List Record :=
  (remote.filter (fun e => e.1.1 = storeName)).map (fun e => rehydrateOneShot e.2)

/-! ## Full resync from remote (syncFromFirebase of DatabaseService) -/

/-- The nine local collections of the DatabaseService. -/
structure Stores where
  users : List Record
  clients : List Record
  receipts : List Record
  expenses : List Record
  activities : List Record
  notifications : List Record
  documents : List Record
  employees : List Record
  attendance : List Record
deriving DecidableEq, Repr

/-- The imp helper of syncFromFirebase: store.add of every fetched item into
the (already cleared) collection, all inside one readwrite transaction.  The
await Promise.all over the IDBRequests awaits nothing (IDBRequests are not
thenables), so the helper always resolves; when every add succeeds the
transaction commits the whole snapshot, and when any add fails (duplicate id
or unique-index collision) the unhandled error aborts the transaction, rolling
back every add and leaving the previously cleared collection EMPTY. -/
def importList (uf : Option String) (items : List Record) : List Record :=
  match importListAux uf [] items with
  | some acc => acc
  | none => []
where
  importListAux (uf : Option String) (acc : List Record) :
      List Record → Option (List Record)
    | [] => some acc
    | r :: rest =>
      match idbAdd uf acc r with
      | .error _ => none
      | .ok acc2 => importListAux uf acc2 rest

/-- syncFromFirebase of DatabaseService: fetch the nine remote snapshots, clear
every local store (each clear is its own committed transaction), then
bulk-insert each snapshot through imp.  It always resolves; the pre-resync
local contents never reach the result.  (Modelled on the online path; the
offline variant rejects before touching local state.) -/
def syncFromFirebase (localStores : Stores) (remote : RemoteDb) : Stores :=
  { users := importList (uniqueIndexField "users")
      (getStoreFromFirebase remote "users"),
    clients := importList (uniqueIndexField "clients")
      (getStoreFromFirebase remote "clients"),
    receipts := importList (uniqueIndexField "receipts")
      (getStoreFromFirebase remote "receipts"),
    expenses := importList (uniqueIndexField "expenses")
      (getStoreFromFirebase remote "expenses"),
    activities := importList (uniqueIndexField "activities")
      (getStoreFromFirebase remote "activities"),
    notifications := importList (uniqueIndexField "notifications")
      (getStoreFromFirebase remote "notifications"),
    documents := importList (uniqueIndexField "documents")
      (getStoreFromFirebase remote "documents"),
    employees := importList (uniqueIndexField "employees")
      (getStoreFromFirebase remote "employees"),
    attendance := importList (uniqueIndexField "attendance")
      (getStoreFromFirebase remote "attendance") }

/-! ## Which DatabaseService mutations enqueue a SyncOperation (claim C2)

One row per mutating method of DatabaseService, transcribing whether the
method calls firebaseSync.addToSyncQueue and with which (type, store)
arguments.  Every call site attaches .catch(console.warn), so a rejected
enqueue never propagates to the store result. -/

/-- The mutating methods of DatabaseService. -/
inductive DbWrite where
  | createUser | updateUser | deleteUser
  | createClient | updateClientW | deleteClient
  | createReceipt | updateReceipt | deleteReceipt
  | createExpense | updateExpense | deleteExpense
  | createActivity
  | createNotification | markNotificationAsRead | markAllNotificationsAsRead
  | createDocument | updateDocument | deleteDocument | logDocumentAccess
  | createEmployee | updateEmployeeW | deleteEmployee
  | markAttendance | updateAttendance | deleteAttendance
deriving DecidableEq, Repr

/-- The (type, store) arguments each method passes to addToSyncQueue;
[] when the method contains no addToSyncQueue call at all. -/
def enqueuedIntents : DbWrite → List (OpType × String)
  | .createUser => [(.create, "users")]
  | .updateUser => [(.update, "users")]
  | .deleteUser => [(.del, "users")]
  | .createClient => [(.create, "clients")]
  | .updateClientW => [(.update, "clients")]
  | .deleteClient => [(.del, "clients")]
  | .createReceipt => [(.create, "receipts")]
  | .updateReceipt => [(.update, "receipts")]
  | .deleteReceipt => [(.del, "receipts")]
  | .createExpense => [(.create, "expenses")]
  | .updateExpense => [(.update, "expenses")]
  | .deleteExpense => [(.del, "expenses")]
  | .createActivity => []
  | .createNotification => []
  | .markNotificationAsRead => []
  | .markAllNotificationsAsRead => []
  | .createDocument => [(.create, "documents")]
  | .updateDocument => [(.update, "documents")]
  | .deleteDocument => [(.del, "documents")]
  | .logDocumentAccess => [(.update, "documents")]
  | .createEmployee => [(.create, "employees")]
  | .updateEmployeeW => [(.update, "employees")]
  | .deleteEmployee => [(.del, "employees")]
  | .markAttendance => [(.create, "attendance")]
  | .updateAttendance => [(.update, "attendance")]
  | .deleteAttendance => [(.del, "attendance")]

/-- The system fields createClient stamps onto the caller payload. -/
def newClientRecord (c : Record) (newId : String) (now : Nat) : Record :=
  setField (setField (setField (setField c
      "id" (.str newId)) "createdAt" (.date now)) "updatedAt" (.date now))
    "lastModified" (.date now)

/-- createClient of DatabaseService: stamp system fields, fire the enqueue
(fire-and-forget: enqueueFailed records whether that promise rejected, the
store result never depends on it) and add to the clients store.  Returns the
store-call result and the sync intents issued. -/
def createClientCall (coll : List Record) (c : Record) (newId : String)
    (now : Nat) (enqueueFailed : Bool) :
    Except DbError (List Record) × List (OpType × String) :=
  (idbAdd (uniqueIndexField "clients") coll (newClientRecord c newId now),
   if enqueueFailed then [] else [(.create, "clients")])

/-- createActivity of DatabaseService: assigns an id and adds to the
activities store (no unique secondary index); the method body contains no
addToSyncQueue call. -/
def createActivityCall (coll : List Record) (a : Record) (newId : String) :
    Except DbError (List Record) × List (OpType × String) :=
  (idbAdd (uniqueIndexField "activities") coll (setField a "id" (.str newId)), [])

/-- createNotification of DatabaseService: same shape as createActivity,
again with no addToSyncQueue call. -/
def createNotificationCall (coll : List Record) (n : Record) (newId : String) :
    Except DbError (List Record) × List (OpType × String) :=
  (idbAdd (uniqueIndexField "notifications") coll (setField n "id" (.str newId)), [])

/-! ## General drain-order lemmas -/

/-- The outcome assigned to each snapshot operation by an oracle: each
operation consumes one oracle entry, in order. -/
def outcomes : List SyncOperation → List Bool → List (SyncOperation × Bool)
  | [], _ => []
  | op :: rest, oracle => (op, (nextOutcome oracle).1) :: outcomes rest (nextOutcome oracle).2

theorem runOps_requeued_delivered (devId : String) (q : List SyncOperation) :
    ∀ (oracle : List Bool) (remote : RemoteDb),
      (runOps devId q oracle remote).1 =
        ((outcomes q oracle).filter (fun p => p.2)).map Prod.fst ∧
      (runOps devId q oracle remote).2.1 =
        ((outcomes q oracle).filter (fun p => !p.2)).map Prod.fst := by
  induction q with
  | nil => intro oracle remote; simp [runOps, outcomes]
  | cons op rest ih =>
    intro oracle remote
    have h2f := ih (nextOutcome oracle).2 remote
    have h2s := ih (nextOutcome oracle).2 (syncToFirebase devId op remote)
    cases hno : (nextOutcome oracle).1 with
    | true =>
      simp only [runOps, outcomes, hno, if_true, List.filter_cons, List.map_cons,
        Bool.not_true, h2f.1, h2f.2]
      simp
    | false =>
      simp only [runOps, outcomes, hno, if_false, List.filter_cons, List.map_cons,
        Bool.not_false, h2s.1, h2s.2]
      simp

/-! ## Concrete operations and states used by counterexamples and witnesses -/

/-- A queued update of client c1. -/
def op1x : SyncOperation :=
  { id := "s1", type := .update, store := "clients",
    data := [("id", .str "c1"), ("createdAt", .date 1)],
    timestamp := .date 10, deviceId := "dev" }

/-- A later queued update of the same client c1. -/
def op2x : SyncOperation :=
  { id := "s2", type := .update, store := "clients",
    data := [("id", .str "c1"), ("createdAt", .date 1), ("name", .str "B")],
    timestamp := .date 20, deviceId := "dev" }

/-- Online state with op1x and op2x enqueued in that order. -/
def st0x : SyncState :=
  { isOnline := true, syncQueue := [op1x, op2x], storage := some [],
    remote := [], attempted := [], delivered := [], deviceId := "dev" }

/-- Offline state with a pending operation. -/
def stOffx : SyncState :=
  { isOnline := false, syncQueue := [op1x], storage := some [],
    remote := [], attempted := [], delivered := [], deviceId := "dev" }

/-- Claim C9: draining is a no-op when offline or when the queue is empty:
the state (queue, persisted queue, remote store, attempt and delivery logs)
is returned unchanged and the oracle is not consumed. -/
theorem processSyncQueue_noop (st : SyncState) (oracle : List Bool)
    (h : ¬ st.isOnline ∨ st.syncQueue = []) :
    processSyncQueue st oracle = (st, oracle) := by
  simp only [processSyncQueue, if_pos h]

/-- Claim C9 witness: the offline state with a pending operation is left
untouched by a drain. -/
theorem processSyncQueue_noop_witness :
    processSyncQueue stOffx [false] = (stOffx, [false]) :=
  processSyncQueue_noop stOffx [false] (Or.inl (by decide))

/-- Claim C7: enqueueing appends the operation at the tail of the in-memory
queue (new queue = q ++ [op], length incremented by one) and persists the
entire serialized sequence, overwriting the stored value; addToSyncQueue
performs exactly this step and, when offline, nothing else. -/
theorem enqueue_appends_and_persists (st : SyncState) (op : SyncOperation)
    (ty : OpType) (storeName : String) (data : Record) (newId : String)
    (now : Nat) (oracle : List Bool) :
    (enqueueStep st op).syncQueue = st.syncQueue ++ [op] ∧
    (enqueueStep st op).syncQueue.length = st.syncQueue.length + 1 ∧
    (enqueueStep st op).storage = some ((st.syncQueue ++ [op]).map serializeOp) ∧
    addToSyncQueue { st with isOnline := false } ty storeName data newId now oracle =
      (enqueueStep { st with isOnline := false }
        { id := newId, type := ty, store := storeName, data := data,
          timestamp := .date now, deviceId := st.deviceId }, oracle) := by
  refine ⟨rfl, by simp [enqueueStep], rfl, ?_⟩
  simp [addToSyncQueue, enqueueStep]

/-- Claim C1 counterexample: with op1x and op2x enqueued in that order on the
same record id, op1x failing its first delivery attempt (and being re-appended
at the tail) and op2x succeeding, the remote sink receives op2x first and op1x
only on the following drain: the delivery order is [op2x, op1x], not the
enqueue order. -/
theorem drain_fifo_counterexample :
    dataId op1x.data = dataId op2x.data ∧
    op1x ≠ op2x ∧
    st0x.syncQueue = [op1x, op2x] ∧
    (processSyncQueue st0x [true, false]).1.syncQueue = [op1x] ∧
    ((processSyncQueue (processSyncQueue st0x [true, false]).1 []).1).delivered
      = [op2x, op1x] := by
  refine ⟨by decide, by decide, by decide, by decide, by decide⟩

/-- Claim C1 amended: a drain while online delivers to the remote sink exactly
the snapshot operations whose attempt succeeds, in enqueue order, and
re-queues exactly the failed operations, in order, at the tail.  Hence
same-record FIFO delivery holds among operations that succeed in the same
drain, but an operation that fails its first attempt is delivered only on a
later drain, after every same-drain success (including later operations on
the same record). -/
theorem drain_order_spec (st : SyncState) (op : SyncOperation)
    (rest : List SyncOperation) (oracle : List Bool) :
    ((processSyncQueue { st with isOnline := true, syncQueue := op :: rest }
        oracle).1).delivered =
      st.delivered ++
        ((outcomes (op :: rest) oracle).filter (fun p => !p.2)).map Prod.fst ∧
    ((processSyncQueue { st with isOnline := true, syncQueue := op :: rest }
        oracle).1).syncQueue =
      ((outcomes (op :: rest) oracle).filter (fun p => p.2)).map Prod.fst := by
  have h := runOps_requeued_delivered st.deviceId (op :: rest) oracle st.remote
  simp only [processSyncQueue]
  rw [if_neg (by simp)]
  exact ⟨by simp [h.2], by simp [h.1]⟩

/-! ## Retry behaviour (claim C6) -/

/-- k consecutive drain triggers of the no-ceiling service, every delivery
attempt failing, starting from an online state holding one pending op. -/
def failDrainIter (op : SyncOperation) (st : SyncState) : Nat → SyncState
  | 0 => { st with isOnline := true, syncQueue := [op] }
  | k + 1 => (processSyncQueue (failDrainIter op st k) [true]).1

/-- Claim C6 amended: in the FirebaseSyncService of
src/src/services/firebaseSync.ts retries are unbounded: after any number k of
drain triggers whose delivery attempt failed, the operation is still pending
and has been attempted exactly once per trigger, and the next trigger attempts
it again; only the part_002 variant stops once its retryAttempts counter
reaches maxRetries = 3 (see the counterexample) until a connectivity event
resets it. -/
theorem drain_retries_unbounded (op : SyncOperation) (st : SyncState) (k : Nat) :
    (failDrainIter op st k).syncQueue = [op] ∧
    (failDrainIter op st k).isOnline = true ∧
    (failDrainIter op st k).attempted = st.attempted ++ List.replicate k op ∧
    (failDrainIter op st k).delivered = st.delivered := by
  induction k with
  | zero => exact ⟨rfl, rfl, by simp [failDrainIter], rfl⟩
  | succ k ih =>
    have hq := ih.1
    have ho := ih.2.1
    have hguard : ¬ (¬ (failDrainIter op st k).isOnline ∨
        (failDrainIter op st k).syncQueue = []) := by
      rw [hq, ho]; simp
    have hrun : ∀ (d : String) (rm : RemoteDb),
        runOps d [op] [true] rm = ([op], [], rm, []) := fun d rm => rfl
    refine ⟨?_, ?_, ?_, ?_⟩ <;>
      simp [failDrainIter, processSyncQueue, if_neg hguard, hq, ho, hrun,
        ih.2.2.1, ih.2.2.2, List.replicate_succ']

/-- Online state of the part_002 retry-limited variant holding one pending op
and a fresh retry counter. -/
def stR0x : SyncStateR :=
  { isOnline := true, syncQueue := [op1x], storage := some [],
    remote := [], attempted := [], delivered := [], retryAttempts := 0,
    deviceId := "dev" }

/-- Three consecutive failed drains of the part_002 variant from stR0x. -/
def stR3x : SyncStateR :=
  (processSyncQueueR
    (processSyncQueueR (processSyncQueueR stR0x [true]).1 [true]).1 [true]).1

/-- Claim C6 counterexample: in the part_002 variant, after three failed
delivery attempts the pending operation is still queued, retryAttempts has
reached maxRetries = 3, and the fourth (and every later) drain trigger returns
without attempting it: there IS a retry-count ceiling after which a
still-pending operation stops being attempted. -/
theorem retry_ceiling_counterexample :
    stR3x.syncQueue = [op1x] ∧
    stR3x.retryAttempts = 3 ∧
    stR3x.attempted = [op1x, op1x, op1x] ∧
    stR3x.delivered = [] ∧
    processSyncQueueR stR3x [true] = (stR3x, [true]) := by
  refine ⟨rfl, rfl, rfl, rfl, rfl⟩

/-! ## Enqueue coverage of DatabaseService mutations (claim C2) -/

/-- Claim C2 counterexample: createActivity (and createNotification) performs
no addToSyncQueue call at all: a successful create on the activities
collection enqueues no SyncOperation. -/
theorem createActivity_enqueues_nothing :
    enqueuedIntents .createActivity = [] ∧
    enqueuedIntents .createNotification = [] ∧
    (createActivityCall [] [("message", .str "m")] "a1").2 = [] ∧
    (createActivityCall [] [("message", .str "m")] "a1").1 =
      .ok [setField [("message", .str "m")] "id" (.str "a1")] := by
  refine ⟨rfl, rfl, rfl, rfl⟩

/-- Claim C2 amended: every DatabaseService create/update/delete enqueues
exactly one corresponding SyncOperation, except createActivity,
createNotification, markNotificationAsRead and markAllNotificationsAsRead,
which enqueue none; and the store-call result never depends on whether the
fire-and-forget enqueue failed (failure is caught, never raised). -/
theorem dbWrite_enqueue_policy :
    (∀ w : DbWrite, enqueuedIntents w = [] ↔
      (w = .createActivity ∨ w = .createNotification ∨
       w = .markNotificationAsRead ∨ w = .markAllNotificationsAsRead)) ∧
    (∀ w : DbWrite, (enqueuedIntents w).length ≤ 1) ∧
    (∀ (coll : List Record) (c : Record) (newId : String) (now : Nat)
        (b1 b2 : Bool),
      (createClientCall coll c newId now b1).1 =
        (createClientCall coll c newId now b2).1) := by
  refine ⟨fun w => by cases w <;> simp [enqueuedIntents],
    fun w => by cases w <;> simp [enqueuedIntents],
    fun coll c newId now b1 b2 => rfl⟩

/-! ## Update semantics of the local store (claim C3) -/

/-- A client record whose id is nowhere in the store. -/
def recx : Record := [("id", .str "c9"), ("name", .str "N")]

/-- Claim C3 counterexample: updateClient on an empty clients collection
succeeds and INSERTS the (timestamp-stamped) record: the store layer never
reports NotFound because IDBObjectStore.put upserts. -/
theorem updateClient_inserts_counterexample :
    updateClient [] recx 7 = .ok [stampUpdate recx 7] ∧
    dataId (stampUpdate recx 7) = "c9" ∧
    (stampUpdate recx 7 ≠ []) := by
  refine ⟨rfl, by decide, by decide⟩

/-- Claim C3 amended: update never fails with NotFound: the store layer uses
put, an upsert, so an absent identifier alone never causes a failure.  The
stamped record keeps the original identifier and unique secondary key, and the
call succeeds, replacing the stored record when the identifier exists and
inserting the record when it does not, UNLESS the unique secondary key of the
collection (cnic for clients, employeeId for employees) collides with a record
stored under a different identifier, in which case the call fails with
ConstraintError, still not NotFound. -/
theorem updateClient_upsert (coll : List Record) (r : Record) (now : Nat) :
    dataId (stampUpdate r now) = dataId r ∧
    fieldLookup "cnic" (stampUpdate r now) = fieldLookup "cnic" r ∧
    fieldLookup "employeeId" (stampUpdate r now) = fieldLookup "employeeId" r ∧
    updateClient coll r now =
      (if uniqueConflict (some "cnic") coll r then .error .constraintError
       else .ok (if ∃ s ∈ coll, dataId s = dataId r then
            coll.map (fun s =>
              if dataId s = dataId r then stampUpdate r now else s)
          else coll ++ [stampUpdate r now])) ∧
    updateEmployee coll r now =
      (if uniqueConflict (some "employeeId") coll r then .error .constraintError
       else .ok (if ∃ s ∈ coll, dataId s = dataId r then
            coll.map (fun s =>
              if dataId s = dataId r then stampUpdate r now else s)
          else coll ++ [stampUpdate r now])) := by
  have hpres : dataId (stampUpdate r now) = dataId r := by
    unfold dataId stampUpdate
    rw [fieldLookup_setField_ne _ _ _ _ (by decide),
      fieldLookup_setField_ne _ _ _ _ (by decide)]
  have hcnic : fieldLookup "cnic" (stampUpdate r now) = fieldLookup "cnic" r := by
    unfold stampUpdate
    rw [fieldLookup_setField_ne _ _ _ _ (by decide),
      fieldLookup_setField_ne _ _ _ _ (by decide)]
  have hemp : fieldLookup "employeeId" (stampUpdate r now) =
      fieldLookup "employeeId" r := by
    unfold stampUpdate
    rw [fieldLookup_setField_ne _ _ _ _ (by decide),
      fieldLookup_setField_ne _ _ _ _ (by decide)]
  have hconf : ∀ f : String,
      fieldLookup f (stampUpdate r now) = fieldLookup f r →
      uniqueConflict (some f) coll (stampUpdate r now) =
        uniqueConflict (some f) coll r := by
    intro f hf
    show (∃ s ∈ coll, dataId s ≠ dataId (stampUpdate r now) ∧
        fieldLookup f (stampUpdate r now) ≠ none ∧
        fieldLookup f s = fieldLookup f (stampUpdate r now)) =
      (∃ s ∈ coll, dataId s ≠ dataId r ∧ fieldLookup f r ≠ none ∧
        fieldLookup f s = fieldLookup f r)
    rw [hpres, hf]
  refine ⟨hpres, hcnic, hemp, ?_, ?_⟩
  · unfold updateClient idbPut
    simp only [show uniqueIndexField "clients" = some "cnic" from rfl,
      hconf "cnic" hcnic, hpres]
  · unfold updateEmployee idbPut
    simp only [show uniqueIndexField "employees" = some "employeeId" from rfl,
      hconf "employeeId" hemp, hpres]

/-! ## Remote round trip of date fields (claim C4) -/

theorem fieldLookup_rehydrateOneShot (name : String) (r : Record) :
    fieldLookup name (rehydrateOneShot r) =
      (fieldLookup name r).map
        (fun v => if name ∈ oneShotDateFields then parseValue v else v) := by
  induction r with
  | nil => rfl
  | cons p r ih =>
    obtain ⟨k, v⟩ := p
    have hcons : rehydrateOneShot ((k, v) :: r) =
        (if k ∈ oneShotDateFields then ((k, parseValue v) : String × Value)
         else (k, v)) :: rehydrateOneShot r := rfl
    rw [hcons]
    by_cases hmem : k ∈ oneShotDateFields
    · rw [if_pos hmem]
      by_cases hk : k = name
      · subst hk
        simp [fieldLookup, hmem]
      · simp only [fieldLookup, if_neg hk]
        exact ih
    · rw [if_neg hmem]
      by_cases hk : k = name
      · subst hk
        simp [fieldLookup, hmem]
      · simp only [fieldLookup, if_neg hk]
        exact ih

/-- Writing one operation to an empty remote store and reading its collection
back through the one-shot read (syncToFirebase then getStoreFromFirebase). -/
def writeThenReadOne (devId : String) (op : SyncOperation) : List Record :=
  getStoreFromFirebase (syncToFirebase devId op []) op.store

theorem fieldLookup_syncPayload (devId : String) (op : SyncOperation)
    (name : String) (hlm : name ≠ "lastModified") (hsb : name ≠ "syncedBy") :
    fieldLookup name (syncPayload devId op) =
      (fieldLookup name op.data).map serializeValue := by
  unfold syncPayload
  rw [fieldLookup_setField_ne _ _ _ _ hsb, fieldLookup_setField_ne _ _ _ _ hlm,
    fieldLookup_serializeRecord]

theorem writeThenReadOne_eq (devId : String) (op : SyncOperation)
    (hty : op.type = .create ∨ op.type = .update) :
    writeThenReadOne devId op = [rehydrateOneShot (syncPayload devId op)] := by
  have hset : syncToFirebase devId op [] =
      [((op.store, dataId op.data), syncPayload devId op)] := by
    rcases hty with h | h <;>
      simp [syncToFirebase, h, remoteSet]
  unfold writeThenReadOne
  rw [hset]
  simp [getStoreFromFirebase]

/-- Claim C4 amended: writing a record to the remote mirror and reading it
back through the one-shot collection read restores a date-typed field to a
native date ONLY when its name is in the fixed rehydration list (createdAt,
updatedAt, lastModified, date, timestamp, uploadedAt, lastAccessed,
lastLogin); every other date-typed field, including employee joinDate and
attendance checkIn/checkOut, comes back as its ISO-8601 string. -/
theorem oneShot_roundTrip (devId : String) (op : SyncOperation)
    (name : String) (n : Nat)
    (hdata : fieldLookup name op.data = some (.date n))
    (hlm : name ≠ "lastModified") (hsb : name ≠ "syncedBy")
    (hty : op.type = .create ∨ op.type = .update) :
    fieldLookup name ((writeThenReadOne devId op).headD []) =
      some (if name ∈ oneShotDateFields then Value.date n
            else .str (encodeDate n)) := by
  rw [writeThenReadOne_eq devId op hty]
  simp only [List.headD]
  rw [fieldLookup_rehydrateOneShot,
    fieldLookup_syncPayload devId op name hlm hsb, hdata]
  by_cases hmem : name ∈ oneShotDateFields
  · simp [hmem, serializeValue, parseValue, decodeDate_encodeDate]
  · simp [hmem, serializeValue]

/-- An employee record with a joinDate (not in the rehydration list) and a
createdAt (in the list). -/
def empRec : Record :=
  [("id", .str "e1"), ("createdAt", .date 3), ("joinDate", .date 5)]

/-- The create operation carrying empRec to the employees collection. -/
def opEmp : SyncOperation :=
  { id := "s9", type := .create, store := "employees", data := empRec,
    timestamp := .date 40, deviceId := "dev" }

/-- Claim C4 counterexample: after writing empRec remotely and reading the
employees collection back via the one-shot read, createdAt is a native date
again but joinDate comes back as the ISO string of instant 5, not the native
date: the round trip fails for employee joinDate. -/
theorem joinDate_not_rehydrated :
    fieldLookup "joinDate" ((writeThenReadOne "dev" opEmp).headD []) =
      some (.str (encodeDate 5)) ∧
    (Value.str (encodeDate 5) ≠ .date 5) ∧
    fieldLookup "createdAt" ((writeThenReadOne "dev" opEmp).headD []) =
      some (.date 3) := by
  have h1 := oneShot_roundTrip "dev" opEmp "joinDate" 5 (by decide)
    (by decide) (by decide) (Or.inl rfl)
  have h2 := oneShot_roundTrip "dev" opEmp "createdAt" 3 (by decide)
    (by decide) (by decide) (Or.inl rfl)
  refine ⟨?_, fun h => Value.noConfusion h, ?_⟩
  · rw [h1, if_neg (by decide)]
  · rw [h2, if_pos (by decide)]

/-- Claim C4 witness: the amended round-trip theorem applied at the concrete
createdAt field of empRec (a name in the rehydration list). -/
theorem oneShot_roundTrip_witness :
    fieldLookup "createdAt" ((writeThenReadOne "dev" opEmp).headD []) =
      some (if "createdAt" ∈ oneShotDateFields then Value.date 3
            else .str (encodeDate 3)) :=
  oneShot_roundTrip "dev" opEmp "createdAt" 3 (by decide) (by decide)
    (by decide) (Or.inl rfl)

/-! ## Full resync from remote (claim C5) -/

/-- No two snapshot records collide on the unique secondary index (trivial for
stores without one): the earlier record never shares a present indexed key
with a later one. -/
def pairwiseNoConflict : Option String → List Record → Prop
  | none, _ => True
  | some f, items =>
    items.Pairwise (fun a b =>
      fieldLookup f b = none ∨ fieldLookup f a ≠ fieldLookup f b)

instance : ∀ (uf : Option String) (items : List Record),
    Decidable (pairwiseNoConflict uf items)
  | none, _ => isTrue trivial
  | some f, items =>
    (inferInstance : Decidable (items.Pairwise (fun a b =>
      fieldLookup f b = none ∨ fieldLookup f a ≠ fieldLookup f b)))

/-- A snapshot every add of which succeeds: pairwise-distinct ids and no
unique-index collision. -/
def importable (uf : Option String) (items : List Record) : Prop :=
  (items.map dataId).Nodup ∧ pairwiseNoConflict uf items

instance (uf : Option String) (items : List Record) :
    Decidable (importable uf items) :=
  inferInstanceAs (Decidable ((items.map dataId).Nodup ∧
    pairwiseNoConflict uf items))

theorem idbAdd_ok_eq (uf : Option String) (acc : List Record) (r : Record)
    (acc2 : List Record) (h : idbAdd uf acc r = .ok acc2) :
    acc2 = acc ++ [r] := by
  unfold idbAdd at h
  by_cases hg : (∃ s ∈ acc, dataId s = dataId r) ∨ uniqueConflict uf acc r
  · rw [if_pos hg] at h; cases h
  · rw [if_neg hg] at h
    cases h
    rfl

theorem importListAux_some (uf : Option String) (items : List Record) :
    ∀ (acc l : List Record),
      importList.importListAux uf acc items = some l → l = acc ++ items := by
  induction items with
  | nil =>
    intro acc l h
    simp only [importList.importListAux, Option.some.injEq] at h
    simp [h.symm]
  | cons r rest ih =>
    intro acc l h
    unfold importList.importListAux at h
    cases hadd : idbAdd uf acc r with
    | error e => rw [hadd] at h; cases h
    | ok acc2 =>
      rw [hadd] at h
      have hl := ih acc2 l h
      rw [hl, idbAdd_ok_eq uf acc r acc2 hadd]
      simp

theorem importListAux_ok (uf : Option String) (items : List Record) :
    ∀ acc : List Record, ((acc ++ items).map dataId).Nodup →
      pairwiseNoConflict uf (acc ++ items) →
      importList.importListAux uf acc items = some (acc ++ items) := by
  induction items with
  | nil => intro acc h hp; simp [importList.importListAux]
  | cons r rest ih =>
    intro acc h hp
    have hassoc : acc ++ r :: rest = (acc ++ [r]) ++ rest := by simp
    have hid : ¬ ∃ s ∈ acc, dataId s = dataId r := by
      rintro ⟨s, hs, hds⟩
      have hmap : ((acc.map dataId) ++ ((r :: rest).map dataId)).Nodup := by
        simpa using h
      have hdisj := (List.nodup_append.mp hmap).2.2
      exact hdisj (hds ▸ List.mem_map_of_mem dataId hs) (by simp)
    have huc : ¬ uniqueConflict uf acc r := by
      cases uf with
      | none => exact fun hfalse => hfalse
      | some f =>
        rintro ⟨s, hs, hsid, hne, heq⟩
        have hp2 : (acc ++ r :: rest).Pairwise (fun a b =>
            fieldLookup f b = none ∨ fieldLookup f a ≠ fieldLookup f b) := hp
        have hrel := (List.pairwise_append.mp hp2).2.2 s hs r (by simp)
        rcases hrel with hnone | hneq
        · exact hne hnone
        · exact hneq heq
    have hadd : idbAdd uf acc r = .ok (acc ++ [r]) := by
      unfold idbAdd
      rw [if_neg (not_or.mpr ⟨hid, huc⟩)]
    have h2 : (((acc ++ [r]) ++ rest).map dataId).Nodup := by
      rw [← hassoc]; exact h
    have hp3 : pairwiseNoConflict uf ((acc ++ [r]) ++ rest) := by
      rw [← hassoc]; exact hp
    calc importList.importListAux uf acc (r :: rest)
        = importList.importListAux uf (acc ++ [r]) rest := by
          simp [importList.importListAux, hadd]
      _ = some ((acc ++ [r]) ++ rest) := ih (acc ++ [r]) h2 hp3
      _ = some (acc ++ r :: rest) := by rw [← hassoc]

theorem importList_ok (uf : Option String) (items : List Record)
    (h : importable uf items) : importList uf items = items := by
  have haux : importList.importListAux uf [] items = some ([] ++ items) :=
    importListAux_ok uf items [] (by simpa using h.1) (by simpa using h.2)
  unfold importList
  rw [haux]
  simp

/-- Any import is all-or-nothing: the committed collection is either exactly
the snapshot (every add succeeded) or empty (the aborted transaction rolled
every add back into the cleared store). -/
theorem importList_total (uf : Option String) (items : List Record) :
    importList uf items = items ∨ importList uf items = [] := by
  unfold importList
  cases haux : importList.importListAux uf [] items with
  | none => right; rfl
  | some l =>
    left
    show l = items
    have := importListAux_some uf items [] l haux
    simpa using this

/-- Local stores holding a pre-resync local-only client. -/
def lstoresX : Stores :=
  { users := [], clients := [recx], receipts := [], expenses := [],
    activities := [], notifications := [], documents := [], employees := [],
    attendance := [] }

/-- A client created on one device. -/
def clientA : Record := [("id", .str "c1"), ("cnic", .str "123")]

/-- A client with a different id but the same cnic, created on another
device; the remote node is keyed by id, so both live in the snapshot. -/
def clientB : Record := [("id", .str "c2"), ("cnic", .str "123")]

/-- A remote clients collection holding both same-cnic records. -/
def remoteDup : RemoteDb :=
  [(("clients", "c1"), clientA), (("clients", "c2"), clientB)]

/-- Claim C5 counterexample: the fetched clients snapshot holds two records
with distinct ids but the same cnic; the add of the second violates the unique
cnic index, the unhandled error aborts the import transaction, and
syncFromFirebase still completes, with an EMPTY local clients collection that
does not equal the snapshot fetched at call time. -/
theorem resync_unique_collision_counterexample :
    getStoreFromFirebase remoteDup "clients" = [clientA, clientB] ∧
    dataId clientA ≠ dataId clientB ∧
    fieldLookup "cnic" clientA = fieldLookup "cnic" clientB ∧
    (syncFromFirebase lstoresX remoteDup).clients = [] ∧
    (syncFromFirebase lstoresX remoteDup).clients ≠
      getStoreFromFirebase remoteDup "clients" := by
  refine ⟨by decide, by decide, by decide, by decide, by decide⟩

/-- Claim C5 amended: syncFromFirebase always completes, and afterwards every
local collection whose fetched snapshot has pairwise-distinct ids and no
unique-secondary-key collision (users.username, clients.cnic,
employees.employeeId) equals exactly that snapshot, with no pre-resync
local-only record remaining; any collection is all-or-nothing: it ends up
either exactly the snapshot or empty (an aborted import transaction over the
cleared store). -/
theorem syncFromFirebase_replaces_exactly (localStores : Stores)
    (remote : RemoteDb)
    (hu : importable (uniqueIndexField "users")
      (getStoreFromFirebase remote "users"))
    (hc : importable (uniqueIndexField "clients")
      (getStoreFromFirebase remote "clients"))
    (hr : importable (uniqueIndexField "receipts")
      (getStoreFromFirebase remote "receipts"))
    (he : importable (uniqueIndexField "expenses")
      (getStoreFromFirebase remote "expenses"))
    (ha : importable (uniqueIndexField "activities")
      (getStoreFromFirebase remote "activities"))
    (hn : importable (uniqueIndexField "notifications")
      (getStoreFromFirebase remote "notifications"))
    (hd : importable (uniqueIndexField "documents")
      (getStoreFromFirebase remote "documents"))
    (hemp : importable (uniqueIndexField "employees")
      (getStoreFromFirebase remote "employees"))
    (hatt : importable (uniqueIndexField "attendance")
      (getStoreFromFirebase remote "attendance")) :
    syncFromFirebase localStores remote =
      { users := getStoreFromFirebase remote "users",
        clients := getStoreFromFirebase remote "clients",
        receipts := getStoreFromFirebase remote "receipts",
        expenses := getStoreFromFirebase remote "expenses",
        activities := getStoreFromFirebase remote "activities",
        notifications := getStoreFromFirebase remote "notifications",
        documents := getStoreFromFirebase remote "documents",
        employees := getStoreFromFirebase remote "employees",
        attendance := getStoreFromFirebase remote "attendance" } ∧
    (∀ (uf : Option String) (items : List Record),
      importList uf items = items ∨ importList uf items = []) := by
  refine ⟨?_, importList_total⟩
  unfold syncFromFirebase
  rw [importList_ok _ _ hu, importList_ok _ _ hc, importList_ok _ _ hr,
    importList_ok _ _ he, importList_ok _ _ ha, importList_ok _ _ hn,
    importList_ok _ _ hd, importList_ok _ _ hemp, importList_ok _ _ hatt]

/-- Claim C5 witness: resyncing from an empty remote replaces the local
clients collection (which held a local-only record) with the empty remote
snapshot. -/
theorem syncFromFirebase_replaces_exactly_witness :
    (syncFromFirebase lstoresX [] =
      { users := getStoreFromFirebase [] "users",
        clients := getStoreFromFirebase [] "clients",
        receipts := getStoreFromFirebase [] "receipts",
        expenses := getStoreFromFirebase [] "expenses",
        activities := getStoreFromFirebase [] "activities",
        notifications := getStoreFromFirebase [] "notifications",
        documents := getStoreFromFirebase [] "documents",
        employees := getStoreFromFirebase [] "employees",
        attendance := getStoreFromFirebase [] "attendance" }) ∧
    (∀ (uf : Option String) (items : List Record),
      importList uf items = items ∨ importList uf items = []) :=
  syncFromFirebase_replaces_exactly lstoresX [] (by decide) (by decide)
    (by decide) (by decide) (by decide) (by decide) (by decide) (by decide)
    (by decide)

/-! ## Queue persistence round trip (claim C8) -/

/-- A freshly enqueued operation with a native Date timestamp. -/
def opT : SyncOperation :=
  { id := "s5", type := .create, store := "clients",
    data := [("id", .str "c1")], timestamp := .date 5, deviceId := "dev" }

/-- Claim C8 counterexample: persisting a queue holding opT (timestamp the
native date 5) and loading it back yields the serialized image whose timestamp
is the ISO STRING of 5, a different value and type than the original: the
persisted queue does not round-trip exactly. -/
theorem queue_roundtrip_counterexample :
    loadSyncQueue (saveSyncQueue [opT]) = [serializeOp opT] ∧
    opT.timestamp = .date 5 ∧
    (serializeOp opT).timestamp = .str (encodeDate 5) ∧
    serializeOp opT ≠ opT := by
  refine ⟨rfl, rfl, rfl, fun h => ?_⟩
  have hts := congrArg SyncOperation.timestamp h
  exact Value.noConfusion hts

/-- Claim C8 amended: a persisted queue loads back as the JSON image of each
operation: id, type, store and deviceId are preserved exactly, while the
timestamp (and any date field of the payload) comes back as its ISO-8601
string rather than a native Date; the original instant remains recoverable by
the new Date(timestamp) parse that the drain performs. -/
theorem queue_persistence_roundtrip (q : List SyncOperation) (n : Nat) :
    loadSyncQueue (saveSyncQueue q) = q.map serializeOp ∧
    (∀ op : SyncOperation, (serializeOp op).id = op.id ∧
      (serializeOp op).type = op.type ∧ (serializeOp op).store = op.store ∧
      (serializeOp op).deviceId = op.deviceId) ∧
    parseValue (serializeValue (.date n)) = .date n := by
  exact ⟨rfl, fun op => ⟨rfl, rfl, rfl, rfl⟩, parseValue_serializeValue_date n⟩

/-! ## Sync metadata object store (claim C10) -/

/-- Claim C10: the schema-upgrade handler never creates an object store named
sync_metadata, so for every database state, getLastSyncTime and
updateLastSyncTime fail when opening their transaction and can never return
or record a last-sync timestamp. -/
theorem syncMetadata_store_missing (meta : List Record) (now : Nat)
    (devId : String) :
    ("sync_metadata" ∉ storeNames) ∧
    getLastSyncTime meta = .error (.storeNotFound "sync_metadata") ∧
    updateLastSyncTime meta now devId =
      .error (.storeNotFound "sync_metadata") := by
  refine ⟨by decide, ?_, ?_⟩
  · unfold getLastSyncTime getObjectStore
    rw [if_neg (by decide)]
  · unfold updateLastSyncTime getObjectStore
    rw [if_neg (by decide)]
